import Mathlib

/-!
Shallow embedding of the SFMC translation-block relay (`src/save-to-de.js`)
and the widget's client-side validation (`collectFieldData` in the custom
block script).

The serverless handler is modelled as a pure function.  Its interactions
with the outside world are made explicit parameters:

* successive `new Date().toISOString()` readings become a clock
  `tsAt : Nat → String` indexed by the call count inside one save;
* the two `Date.now()` readings inside `getSFMCToken` become `now1`
  (the freshness check) and `now2` (the expiry computation);
* the upstream HTTP responses become `AuthResponse` / `UpsertResponse`
  records describing what `fetch` would have resolved to;
* the network requests actually issued are collected in a trace
  (`List NetCall`), so "no network call is made" is `trace = []`.
-/

namespace SfmcRelay

/-- JS truthiness of an optional string value: `undefined`/`null` and the
empty string are falsy, every other string is truthy. -/
def strTruthy : Option String → Bool
  | none => false
  | some s => s != ""

/-- JS template-literal interpolation of a possibly-undefined string:
`undefined` prints as the text `undefined`. -/
def jsTemplate : Option String → String
  | none => "undefined"
  | some s => s

/-- `SFMC_CONFIG` as read from environment variables at module load
(`save-to-de.js` lines 11–17).  Absent variables are `none`. -/
structure Config where
  clientId : Option String
  clientSecret : Option String
  subdomain : Option String
  accountId : Option String
  deExternalKey : String
deriving DecidableEq

/-- The module-level token cache (`save-to-de.js` lines 20–23). -/
structure TokenCache where
  token : Option String
  expiresAt : Int
deriving DecidableEq

/-- Initial cache value: `{ token: null, expiresAt: 0 }`. -/
def initialCache : TokenCache := { token := none, expiresAt := 0 }

/-- The condition of line 30: `tokenCache.token && Date.now() < tokenCache.expiresAt`. -/
def tokenFresh (cache : TokenCache) (now : Int) : Bool :=
  strTruthy cache.token && decide (now < cache.expiresAt)

/-- The environment-variable check of line 123:
`SFMC_CONFIG.clientId && SFMC_CONFIG.clientSecret && SFMC_CONFIG.subdomain`. -/
def configPresent (cfg : Config) : Bool :=
  strTruthy cfg.clientId && strTruthy cfg.clientSecret && strTruthy cfg.subdomain

/-- What the code observes of the token-endpoint response: `response.ok`,
`response.status`, the parsed JSON fields `access_token` / `expires_in`
(consulted only when ok), and `response.text()` (consulted only when not ok). -/
structure AuthResponse where
  ok : Bool
  status : Nat
  accessToken : String
  expiresIn : Int
  bodyText : String
deriving DecidableEq

/-- What the code observes of the rowset-endpoint response. -/
structure UpsertResponse where
  ok : Bool
  status : Nat
  bodyText : String
  json : String
deriving DecidableEq

/-- A field of the inbound request body: `{ name, value }`. -/
structure Field where
  name : String
  value : String
deriving DecidableEq

/-- A Data Extension row as built at lines 137–142; the Lean field names
stand for the JS keys `'email name'`, `'fieldname'`, `'field value'`,
`'EntryDate'`. -/
structure DataRow where
  emailName : String
  fieldname : String
  fieldValue : String
  entryDate : String
deriving DecidableEq

/-- The `keys` object of one element of the rowset request body
(lines 76–79): the JS keys `'email name'` and `'fieldname'`. -/
structure RowKeys where
  emailName : String
  fieldname : String
deriving DecidableEq

/-- One element of the rowset request body: `{ keys, values }`. -/
structure ApiRow where
  keys : RowKeys
  values : DataRow
deriving DecidableEq

/-- The observable content of the token-exchange POST (line 39–50):
its URL and the credential fields placed in its body. -/
structure AuthRequest where
  url : String
  clientId : Option String
  clientSecret : Option String
  accountId : Option String
deriving DecidableEq

/-- A network request issued by the handler. -/
inductive NetCall where
  | auth (req : AuthRequest)
  | upsert (url : String) (bearer : String) (body : List ApiRow)
deriving DecidableEq

/-- The auth endpoint URL of line 37. -/
def authUrl (cfg : Config) : String :=
  "https://" ++ jsTemplate cfg.subdomain ++ ".auth.marketingcloudapis.com/v2/token"

/-- The token-exchange request as issued at lines 39–50. -/
def authReq (cfg : Config) : NetCall :=
  NetCall.auth
    { url := authUrl cfg
      clientId := cfg.clientId
      clientSecret := cfg.clientSecret
      accountId := cfg.accountId }

/-- The error message thrown at line 54. -/
def authErrorMsg (status : Nat) (body : String) : String :=
  "SFMC Auth failed: " ++ toString status ++ " - " ++ body

/-- The cache value written at lines 60–61 after a successful exchange. -/
def refreshedCache (a : AuthResponse) (now2 : Int) : TokenCache :=
  { token := some a.accessToken
    expiresAt := now2 + (a.expiresIn - 60) * 1000 }

/-- `getSFMCToken` (lines 28–65): return the cached token while it is
fresh; otherwise perform one token exchange, and on success store the new
token together with its safety-margin expiry.  Returns the token (or the
thrown error message), the cache afterwards, and the requests issued. -/
def getSFMCToken (cfg : Config) (cache : TokenCache) (now1 now2 : Int)
    (a : AuthResponse) : Except String String × TokenCache × List NetCall :=
  if tokenFresh cache now1 then
    (Except.ok (cache.token.getD ""), cache, [])
  else if a.ok then
    (Except.ok a.accessToken, refreshedCache a now2, [authReq cfg])
  else
    (Except.error (authErrorMsg a.status a.bodyText), cache, [authReq cfg])

/-- The rowset endpoint URL of lines 71–72. -/
def restUrl (cfg : Config) : String :=
  "https://" ++ jsTemplate cfg.subdomain ++ ".rest.marketingcloudapis.com/"
    ++ "hub/v1/dataevents/key:" ++ cfg.deExternalKey ++ "/rowset"

/-- The per-row API shape built at lines 75–81. -/
def toApiRow (row : DataRow) : ApiRow :=
  { keys := { emailName := row.emailName, fieldname := row.fieldname }
    values := row }

/-- The error message thrown at line 96. -/
def upsertErrorMsg (status : Nat) (body : String) : String :=
  "DE Insert failed: " ++ toString status ++ " - " ++ body

/-- `insertDataExtensionRows` (lines 70–100): one POST of the whole batch
to the rowset endpoint; non-ok responses become a thrown error. -/
def insertDataExtensionRows (cfg : Config) (authToken : String)
    (dataRows : List DataRow) (u : UpsertResponse) :
    Except String String × NetCall :=
  let requestBody := dataRows.map toApiRow
  let call := NetCall.upsert (restUrl cfg) authToken requestBody
  if u.ok then (Except.ok u.json, call)
  else (Except.error (upsertErrorMsg u.status u.bodyText), call)

/-- The row expansion of lines 137–142:
`fields.map(field => ({ 'email name': emailName, 'fieldname': field.name,
'field value': field.value, 'EntryDate': new Date().toISOString() }))`.
The `k`-th executed map callback performs the `k`-th `new Date()` reading,
modelled by `tsAt k`. -/
def buildDataRows (emailName : String) (tsAt : Nat → String) :
    List Field → Nat → List DataRow
  | [], _ => []
  | f :: fs, k =>
      { emailName := emailName
        fieldname := f.name
        fieldValue := f.value
        entryDate := tsAt k } :: buildDataRows emailName tsAt fs (k + 1)

/-- The inbound request body `{ emailName, fields }`; a missing key is
`none`, and a `fields` value that is not an array is also modelled `none`
(the code treats both identically via `!fields || !Array.isArray(fields)`). -/
structure ReqBody where
  emailName : Option String
  fields : Option (List Field)
deriving DecidableEq

/-- The inbound HTTP request as consulted by the handler. -/
structure HttpRequest where
  method : String
  body : ReqBody
deriving DecidableEq

/-- The handler's response, by status: 200 for preflight, 405, 400 with an
error text, 200 with the success payload, or 500 with the caught message. -/
inductive HandlerResult where
  | options200
  | methodNotAllowed
  | badRequest (error : String)
  | ok (rowsInserted : Nat) (message : String) (result : String)
  | serverError (error : String)
deriving DecidableEq

/-- The message thrown at line 124. -/
def configErrorMsg : String :=
  "Missing SFMC configuration. Please set environment variables."

/-- The 400 message of lines 131–133. -/
def invalidBodyMsg : String :=
  "Invalid request body. Expected: \x7b emailName, fields \x7d"

/-- The success message of line 154. -/
def successMsg (n : Nat) : String :=
  "Successfully saved " ++ toString n ++ " row(s) to Data Extension"

/-- Recognises the 400 validation response. -/
def isValidationFailure : HandlerResult → Bool
  | HandlerResult.badRequest _ => true
  | _ => false

/-- The module handler (`save-to-de.js` lines 105–167) as a pure function:
given the configuration, the cache on entry, the clocks, the upstream
responses and the inbound request, it returns the response sent, the cache
on exit, and the network requests issued (in order). -/
def handler (cfg : Config) (cache : TokenCache) (tsAt : Nat → String)
    (now1 now2 : Int) (a : AuthResponse) (u : UpsertResponse)
    (req : HttpRequest) : HandlerResult × TokenCache × List NetCall :=
  if req.method == "OPTIONS" then (HandlerResult.options200, cache, [])
  else if req.method != "POST" then (HandlerResult.methodNotAllowed, cache, [])
  else if !configPresent cfg then
    (HandlerResult.serverError configErrorMsg, cache, [])
  else if !(strTruthy req.body.emailName && req.body.fields.isSome) then
    (HandlerResult.badRequest invalidBodyMsg, cache, [])
  else
    let emailName := req.body.emailName.getD ""
    let fields := req.body.fields.getD []
    let dataRows := buildDataRows emailName tsAt fields 0
    match getSFMCToken cfg cache now1 now2 a with
    | (Except.error msg, cache1, calls) =>
        (HandlerResult.serverError msg, cache1, calls)
    | (Except.ok authToken, cache1, calls) =>
        match insertDataExtensionRows cfg authToken dataRows u with
        | (Except.error msg, call) =>
            (HandlerResult.serverError msg, cache1, calls ++ [call])
        | (Except.ok json, call) =>
            (HandlerResult.ok dataRows.length (successMsg dataRows.length) json,
             cache1, calls ++ [call])

/-- All `values` objects sent through upsert calls of a trace. -/
def sentRows (trace : List NetCall) : List DataRow :=
  trace.foldr
    (fun c acc =>
      match c with
      | NetCall.upsert _ _ body => body.map ApiRow.values ++ acc
      | _ => acc) []

/-- The upsert calls of a trace, as (url, body) pairs. -/
def upsertCallsOf (trace : List NetCall) : List (String × List ApiRow) :=
  trace.filterMap
    (fun c =>
      match c with
      | NetCall.upsert url _ body => some (url, body)
      | _ => none)

/-- The token-exchange calls of a trace. -/
def authCallsOf (trace : List NetCall) : List NetCall :=
  trace.filter
    (fun c =>
      match c with
      | NetCall.auth _ => true
      | _ => false)

end SfmcRelay

namespace Widget

/-- Models the JS global single-character regex replace
`s.replace(/c/g, rep)`: every occurrence of the character `c` is replaced
by the string `rep`. -/
def replaceChar (c : Char) (rep : String) (s : String) : String :=
  String.mk
    (s.data.foldr (fun ch acc => if ch == c then rep.data ++ acc else ch :: acc) [])

/-- `sanitizeInput` from the custom block script: the five chained
entity replacements, innermost (`<`) applied first. -/
def sanitizeInput (input : String) : String :=
  replaceChar '/' "&#x2F;"
    (replaceChar '\x27' "&#x27;"
      (replaceChar '\"' "&quot;"
        (replaceChar '>' "&gt;"
          (replaceChar '<' "&lt;" input))))

/-- Models JS `String.prototype.trim`: strip whitespace at both ends. -/
def jsTrim (s : String) : String :=
  String.mk
    (((s.data.dropWhile Char.isWhitespace).reverse.dropWhile
        Char.isWhitespace).reverse)

/-- Models JS `String.prototype.toLowerCase` on the ASCII names used here. -/
def jsToLower (s : String) : String :=
  String.mk (s.data.map Char.toLower)

/-- The duplicate-name message shown by `collectFieldData`. -/
def dupMsg (name : String) : String :=
  "Duplicate field name: \"" ++ name ++ "\". Each field name must be unique."

/-- The per-row loop of `collectFieldData`: trim both inputs, require both
non-empty, reject a case-insensitive duplicate of an already collected
(sanitized) name, then push the sanitized field.  `Except.error` stands
for the JS path that shows the message and returns `null`. -/
def collectLoop :
    List (String × String) → List SfmcRelay.Field →
      Except String (List SfmcRelay.Field)
  | [], acc => Except.ok acc
  | r :: rest, acc =>
      let name := jsTrim r.1
      let value := jsTrim r.2
      if name == "" || value == "" then
        Except.error "All fields must have both a name and a value."
      else if acc.any (fun f => jsToLower f.name == jsToLower name) then
        Except.error (dupMsg name)
      else
        collectLoop rest
          (acc ++ [{ name := sanitizeInput name, value := sanitizeInput value }])

/-- `collectFieldData` from the custom block script, over the raw input
strings of the form: the trimmed email name must be non-empty, then the
row loop runs; a failure anywhere yields the JS `null` return. -/
def collectFieldData (rawEmailName : String)
    (rows : List (String × String)) :
    Except String (String × List SfmcRelay.Field) :=
  let emailName := jsTrim rawEmailName
  if emailName == "" then Except.error "Email Name is required."
  else
    match collectLoop rows [] with
    | Except.error msg => Except.error msg
    | Except.ok fields => Except.ok (sanitizeInput emailName, fields)

/-- True when the collection failed validation (the JS `null` return). -/
def isErr {α : Type} : Except String α → Bool
  | Except.error _ => true
  | Except.ok _ => false

end Widget

namespace SfmcRelay

/-! Example fixtures used by the concrete witnesses and counterexamples. -/

/-- A fully populated configuration. -/
def cfgEx : Config :=
  { clientId := some "id"
    clientSecret := some "secret"
    subdomain := some "mc123"
    accountId := some "7001"
    deExternalKey := "D4344287" }

/-- A successful token-endpoint response. -/
def respOk : AuthResponse :=
  { ok := true, status := 200, accessToken := "tok", expiresIn := 3600,
    bodyText := "" }

/-- A 401 token-endpoint response. -/
def resp401 : AuthResponse :=
  { ok := false, status := 401, accessToken := "", expiresIn := 0,
    bodyText := "unauthorized" }

/-- A successful rowset-endpoint response. -/
def upsertOk : UpsertResponse :=
  { ok := true, status := 200, bodyText := "", json := "accepted" }

/-- A 500 rowset-endpoint response. -/
def upsertBad : UpsertResponse :=
  { ok := false, status := 500, bodyText := "boom", json := "" }

/-- A clock whose successive readings are pairwise distinct. -/
def tsCounting : Nat → String := fun k => toString k

/-- A POST request with two distinct fields. -/
def reqTwoFields : HttpRequest :=
  { method := "POST"
    body := { emailName := some "Welcome Email"
              fields := some [{ name := "subject", value := "Hi" },
                              { name := "header", value := "Yo" }] } }

/-- A POST request whose `fields` is the empty array. -/
def reqEmptyFields : HttpRequest :=
  { method := "POST"
    body := { emailName := some "Welcome Email", fields := some [] } }

/-- A POST request with two case-insensitively equal field names. -/
def reqDupFields : HttpRequest :=
  { method := "POST"
    body := { emailName := some "Welcome Email"
              fields := some [{ name := "Subject", value := "Hi" },
                              { name := "subject", value := "Hi2" }] } }

/-- A POST request with no `emailName`. -/
def reqNoEmail : HttpRequest :=
  { method := "POST"
    body := { emailName := none
              fields := some [{ name := "subject", value := "Hi" }] } }

/-- The upsert payload written from the spec's words (§6): body = an array
with, per row, a keys object holding that row's email name and field name
and a values object that is the full row. -/
def specUpsertBody (rows : List DataRow) : List ApiRow :=
  rows.map
    (fun row =>
      { keys := { emailName := row.emailName, fieldname := row.fieldname }
        values := row })

/-- The bearer tokens attached to the upsert calls of a trace. -/
def bearersOf (trace : List NetCall) : List String :=
  trace.filterMap
    (fun c =>
      match c with
      | NetCall.upsert _ bearer _ => some bearer
      | _ => none)

/-- First character of a string, used to tell the error messages apart. -/
def strHead (s : String) : Option Char := s.data.head?

end SfmcRelay

namespace SfmcRelay

/-! Helper lemmas shared by the claim theorems. -/

theorem postNotOptions : (("POST" : String) == "OPTIONS") = false := by decide

theorem postBneSelf : (("POST" : String) != "POST") = false := by decide

theorem sentRows_nil : sentRows [] = [] := rfl

theorem sentRows_cons_auth (r : AuthRequest) (t : List NetCall) :
    sentRows (NetCall.auth r :: t) = sentRows t := rfl

theorem sentRows_cons_upsert (url bearer : String) (body : List ApiRow)
    (t : List NetCall) :
    sentRows (NetCall.upsert url bearer body :: t)
      = body.map ApiRow.values ++ sentRows t := rfl

theorem upsertCallsOf_nil : upsertCallsOf [] = [] := rfl

theorem upsertCallsOf_cons_auth (r : AuthRequest) (t : List NetCall) :
    upsertCallsOf (NetCall.auth r :: t) = upsertCallsOf t := rfl

theorem upsertCallsOf_cons_upsert (url bearer : String) (body : List ApiRow)
    (t : List NetCall) :
    upsertCallsOf (NetCall.upsert url bearer body :: t)
      = (url, body) :: upsertCallsOf t := rfl

theorem authCallsOf_nil : authCallsOf [] = [] := rfl

theorem authCallsOf_cons_auth (r : AuthRequest) (t : List NetCall) :
    authCallsOf (NetCall.auth r :: t) = NetCall.auth r :: authCallsOf t := rfl

theorem authCallsOf_cons_upsert (url bearer : String) (body : List ApiRow)
    (t : List NetCall) :
    authCallsOf (NetCall.upsert url bearer body :: t) = authCallsOf t := rfl

theorem bearersOf_nil : bearersOf [] = [] := rfl

theorem bearersOf_cons_auth (r : AuthRequest) (t : List NetCall) :
    bearersOf (NetCall.auth r :: t) = bearersOf t := rfl

theorem bearersOf_cons_upsert (url bearer : String) (body : List ApiRow)
    (t : List NetCall) :
    bearersOf (NetCall.upsert url bearer body :: t) = bearer :: bearersOf t := rfl

theorem map_values_toApiRow (rows : List DataRow) :
    (rows.map toApiRow).map ApiRow.values = rows := by
  induction rows with
  | nil => rfl
  | cons r rs ih => simp [toApiRow, ih]

theorem specUpsertBody_eq_map_toApiRow (rows : List DataRow) :
    specUpsertBody rows = rows.map toApiRow := rfl

theorem buildDataRows_length (em : String) (ts : Nat → String) :
    ∀ (fs : List Field) (k : Nat), (buildDataRows em ts fs k).length = fs.length := by
  intro fs
  induction fs with
  | nil => intro k; rfl
  | cons f fs ih => intro k; simp [buildDataRows, ih]

theorem buildDataRows_emailName (em : String) (ts : Nat → String) :
    ∀ (fs : List Field) (k : Nat) (r : DataRow),
      r ∈ buildDataRows em ts fs k → r.emailName = em := by
  intro fs
  induction fs with
  | nil => intro k r hr; cases hr
  | cons f fs ih =>
      intro k r hr
      rcases List.mem_cons.mp hr with h | h
      · rw [h]
      · exact ih (k + 1) r h

theorem strTruthy_some_iff (s : String) : strTruthy (some s) = true ↔ s ≠ "" := by
  simp [strTruthy]

theorem configMsg_ne_authMsg (s : Nat) (b : String) :
    configErrorMsg ≠ authErrorMsg s b := by
  intro h
  have h2 : strHead configErrorMsg = strHead (authErrorMsg s b) := by rw [h]
  rw [show strHead configErrorMsg = some 'M' from rfl] at h2
  rw [show strHead (authErrorMsg s b) = some 'S' from rfl] at h2
  exact absurd h2 (by decide)

theorem configMsg_ne_upsertMsg (s : Nat) (b : String) :
    configErrorMsg ≠ upsertErrorMsg s b := by
  intro h
  have h2 : strHead configErrorMsg = strHead (upsertErrorMsg s b) := by rw [h]
  rw [show strHead configErrorMsg = some 'M' from rfl] at h2
  rw [show strHead (upsertErrorMsg s b) = some 'D' from rfl] at h2
  exact absurd h2 (by decide)

theorem configMsg_ne_invalidBodyMsg : configErrorMsg ≠ invalidBodyMsg := by decide

/-! The claim theorems. -/

/-- Claim C1: for every call to `getSFMCToken`, when a cached token exists
and the current time is strictly before its expiry the cached token string
is returned and no network request is made; when the cache is empty or the
expiry has passed, exactly one token-exchange request is performed and, on
success, the cache is updated with the new token and expiry. -/
theorem getSFMCToken_cache_behavior (cfg : Config) (cache : TokenCache)
    (now1 now2 : Int) (a : AuthResponse) :
    (tokenFresh cache now1 = true →
      getSFMCToken cfg cache now1 now2 a
        = (Except.ok (cache.token.getD ""), cache, [])) ∧
    (tokenFresh cache now1 = false →
      (getSFMCToken cfg cache now1 now2 a).2.2 = [authReq cfg] ∧
      (a.ok = true →
        getSFMCToken cfg cache now1 now2 a
          = (Except.ok a.accessToken, refreshedCache a now2, [authReq cfg]))) := by
  refine ⟨fun h => ?_, fun h => ⟨?_, fun ha => ?_⟩⟩
  · simp [getSFMCToken, h]
  · cases ha : a.ok <;> simp [getSFMCToken, h, ha]
  · simp [getSFMCToken, h, ha]

/-- Witness for C1: a fresh cached token is returned without a request;
an empty cache leads to exactly one exchange request. -/
theorem getSFMCToken_cache_behavior_witness :
    (getSFMCToken cfgEx { token := some "cached", expiresAt := 1000 } 5 7 respOk
      = (Except.ok "cached", { token := some "cached", expiresAt := 1000 }, [])) ∧
    (getSFMCToken cfgEx initialCache 5 7 respOk).2.2 = [authReq cfgEx] :=
  ⟨(getSFMCToken_cache_behavior cfgEx
      { token := some "cached", expiresAt := 1000 } 5 7 respOk).1 (by decide),
   ((getSFMCToken_cache_behavior cfgEx initialCache 5 7 respOk).2 (by decide)).1⟩

/-- Claim C5: if the token exchange returns a non-success response, the
save call fails with the auth error carrying the upstream status and body,
and the token cache is left unchanged (no failed result is stored). -/
theorem handler_auth_failure_keeps_cache (cfg : Config) (cache : TokenCache)
    (tsAt : Nat → String) (now1 now2 : Int) (a : AuthResponse)
    (u : UpsertResponse) (req : HttpRequest)
    (hm : req.method = "POST") (hc : configPresent cfg = true)
    (hv : (strTruthy req.body.emailName && req.body.fields.isSome) = true)
    (hmiss : tokenFresh cache now1 = false) (ha : a.ok = false) :
    handler cfg cache tsAt now1 now2 a u req
      = (HandlerResult.serverError (authErrorMsg a.status a.bodyText), cache,
         [authReq cfg]) := by
  simp [handler, getSFMCToken, hm, hc, hv, hmiss, ha, postNotOptions, postBneSelf]

/-- Witness for C5: a 401 token exchange makes the save fail with the auth
error for status 401 and leaves the empty cache empty. -/
theorem handler_auth_failure_keeps_cache_witness :
    handler cfgEx initialCache tsCounting 0 0 resp401 upsertOk reqTwoFields
      = (HandlerResult.serverError (authErrorMsg 401 "unauthorized"),
         initialCache, [authReq cfgEx]) :=
  handler_auth_failure_keeps_cache cfgEx initialCache tsCounting 0 0 resp401
    upsertOk reqTwoFields rfl (by decide) (by decide) (by decide) rfl

/-- Claim C8: on every successful token exchange the cached expiry is
`now + (expires_in - 60) * 1000`: the server-reported expiry in seconds
minus a 60-second safety margin, converted to epoch milliseconds. -/
theorem token_expiry_formula (cfg : Config) (cache : TokenCache)
    (now1 now2 : Int) (a : AuthResponse)
    (hmiss : tokenFresh cache now1 = false) (ha : a.ok = true) :
    ((getSFMCToken cfg cache now1 now2 a).2.1).expiresAt
      = now2 + (a.expiresIn - 60) * 1000 := by
  simp [getSFMCToken, hmiss, ha, refreshedCache]

/-- Witness for C8: at `now = 1000` with `expires_in = 3600` the cached
expiry is `1000 + 3540 * 1000 = 3541000`. -/
theorem token_expiry_formula_witness :
    ((getSFMCToken cfgEx initialCache 5 1000 respOk).2.1).expiresAt = 3541000 := by
  rw [token_expiry_formula cfgEx initialCache 5 1000 respOk (by decide) rfl]
  decide

/-- Claim C9: if any of client id, client secret or subdomain is absent
from the configuration, every save request fails fast with the distinct
configuration error before any network call is attempted: the response is
the fixed configuration message (different from the auth, upsert and
validation messages), the cache is untouched and the trace is empty. -/
theorem handler_missing_config_fails_fast (cfg : Config) (cache : TokenCache)
    (tsAt : Nat → String) (now1 now2 : Int) (a : AuthResponse)
    (u : UpsertResponse) (req : HttpRequest)
    (hm : req.method = "POST") (hc : configPresent cfg = false) :
    handler cfg cache tsAt now1 now2 a u req
        = (HandlerResult.serverError configErrorMsg, cache, []) ∧
      configErrorMsg ≠ authErrorMsg a.status a.bodyText ∧
      configErrorMsg ≠ upsertErrorMsg u.status u.bodyText ∧
      configErrorMsg ≠ invalidBodyMsg := by
  refine ⟨?_, configMsg_ne_authMsg a.status a.bodyText,
    configMsg_ne_upsertMsg u.status u.bodyText, configMsg_ne_invalidBodyMsg⟩
  simp [handler, hm, hc, postNotOptions, postBneSelf]

/-- Witness for C9: with the client secret missing, a well-formed save
request yields the configuration error and an empty trace. -/
theorem handler_missing_config_fails_fast_witness :
    handler { cfgEx with clientSecret := none } initialCache tsCounting 0 0
        respOk upsertOk reqTwoFields
      = (HandlerResult.serverError configErrorMsg, initialCache, []) :=
  (handler_missing_config_fails_fast { cfgEx with clientSecret := none }
    initialCache tsCounting 0 0 respOk upsertOk reqTwoFields rfl (by decide)).1

end SfmcRelay

namespace SfmcRelay

theorem sentRows_append (l1 l2 : List NetCall) :
    sentRows (l1 ++ l2) = sentRows l1 ++ sentRows l2 := by
  induction l1 with
  | nil => rfl
  | cons c t ih =>
      cases c <;> simp [sentRows_cons_auth, sentRows_cons_upsert, ih]

theorem upsertCallsOf_append (l1 l2 : List NetCall) :
    upsertCallsOf (l1 ++ l2) = upsertCallsOf l1 ++ upsertCallsOf l2 := by
  simp [upsertCallsOf, List.filterMap_append]

theorem authCallsOf_append (l1 l2 : List NetCall) :
    authCallsOf (l1 ++ l2) = authCallsOf l1 ++ authCallsOf l2 := by
  simp [authCallsOf, List.filter_append]

theorem bearersOf_append (l1 l2 : List NetCall) :
    bearersOf (l1 ++ l2) = bearersOf l1 ++ bearersOf l2 := by
  simp [bearersOf, List.filterMap_append]

theorem handler_with_token (cfg : Config) (cache cache1 : TokenCache)
    (tsAt : Nat → String) (now1 now2 : Int) (a : AuthResponse)
    (u : UpsertResponse) (req : HttpRequest) (fs : List Field) (tok : String)
    (calls : List NetCall)
    (hm : req.method = "POST") (hc : configPresent cfg = true)
    (he : strTruthy req.body.emailName = true) (hf : req.body.fields = some fs)
    (hg : getSFMCToken cfg cache now1 now2 a = (Except.ok tok, cache1, calls))
    (hu : u.ok = true) :
    handler cfg cache tsAt now1 now2 a u req
      = (HandlerResult.ok fs.length (successMsg fs.length) u.json, cache1,
         calls ++ [NetCall.upsert (restUrl cfg) tok
           ((buildDataRows (req.body.emailName.getD "") tsAt fs 0).map toApiRow)]) := by
  simp [handler, hm, hc, he, hf, hg, insertDataExtensionRows, hu,
        postNotOptions, postBneSelf, buildDataRows_length]

theorem handler_with_token_upsert_fail (cfg : Config) (cache cache1 : TokenCache)
    (tsAt : Nat → String) (now1 now2 : Int) (a : AuthResponse)
    (u : UpsertResponse) (req : HttpRequest) (fs : List Field) (tok : String)
    (calls : List NetCall)
    (hm : req.method = "POST") (hc : configPresent cfg = true)
    (he : strTruthy req.body.emailName = true) (hf : req.body.fields = some fs)
    (hg : getSFMCToken cfg cache now1 now2 a = (Except.ok tok, cache1, calls))
    (hu : u.ok = false) :
    handler cfg cache tsAt now1 now2 a u req
      = (HandlerResult.serverError (upsertErrorMsg u.status u.bodyText), cache1,
         calls ++ [NetCall.upsert (restUrl cfg) tok
           ((buildDataRows (req.body.emailName.getD "") tsAt fs 0).map toApiRow)]) := by
  simp [handler, hm, hc, he, hf, hg, insertDataExtensionRows, hu,
        postNotOptions, postBneSelf]

theorem getSFMCToken_ok_cases (cfg : Config) (cache : TokenCache)
    (now1 now2 : Int) (a : AuthResponse)
    (htok : tokenFresh cache now1 = true ∨ a.ok = true) :
    ∃ tok cache1 calls,
      getSFMCToken cfg cache now1 now2 a = (Except.ok tok, cache1, calls) ∧
      sentRows calls = [] ∧ upsertCallsOf calls = [] := by
  cases hfr : tokenFresh cache now1
  · rcases htok with h | h
    · rw [hfr] at h; cases h
    · exact ⟨a.accessToken, refreshedCache a now2, [authReq cfg],
        by simp [getSFMCToken, hfr, h], rfl, rfl⟩
  · exact ⟨cache.token.getD "", cache, [], by simp [getSFMCToken, hfr], rfl, rfl⟩

/-- Claim C2 (amended): the generation timestamp is captured once per
field, not once per save: the row built for the `i`-th field of a save
carries the `i`-th `new Date()` reading, so the rows of one save share an
identical entry timestamp only when those separate readings coincide. -/
theorem buildDataRows_per_field_clock (emailName : String) (tsAt : Nat → String)
    (fields : List Field) (k : Nat) :
    buildDataRows emailName tsAt fields k =
      (List.enumFrom k fields).map
        (fun p => { emailName := emailName, fieldname := p.2.name,
                    fieldValue := p.2.value, entryDate := tsAt p.1 }) := by
  induction fields generalizing k with
  | nil => rfl
  | cons f fs ih => simp [buildDataRows, List.enumFrom, ih]

/-- Claim C2 counterexample: with a clock that advances between the two
per-field readings, one save produces two rows whose entry timestamps
differ, refuting that every row of a save carries an identical timestamp. -/
theorem perFieldTimestamp_refutes_single_timestamp :
    ¬ (∀ r1 ∈ sentRows (handler cfgEx initialCache tsCounting 0 0 respOk
          upsertOk reqTwoFields).2.2,
       ∀ r2 ∈ sentRows (handler cfgEx initialCache tsCounting 0 0 respOk
          upsertOk reqTwoFields).2.2,
       r1.entryDate = r2.entryDate) := by decide

/-- Claim C3 (amended): with the configuration present, a POST fails the
server's validation (HTTP 400, no network call) exactly when `emailName`
is falsy or `fields` is missing or not an array; in particular an empty
`fields` array, or fields with empty name or value, are not rejected. -/
theorem handler_validation_characterization (cfg : Config) (cache : TokenCache)
    (tsAt : Nat → String) (now1 now2 : Int) (a : AuthResponse)
    (u : UpsertResponse) (req : HttpRequest)
    (hm : req.method = "POST") (hc : configPresent cfg = true) :
    (isValidationFailure (handler cfg cache tsAt now1 now2 a u req).1 = true ∧
      (handler cfg cache tsAt now1 now2 a u req).2.2 = []) ↔
    (strTruthy req.body.emailName && req.body.fields.isSome) = false := by
  cases hval : (strTruthy req.body.emailName && req.body.fields.isSome) with
  | false =>
      simp [handler, hm, hc, hval, postNotOptions, postBneSelf, isValidationFailure]
  | true =>
      refine iff_of_false ?_ (by simp)
      intro hcontra
      have hbad : isValidationFailure (handler cfg cache tsAt now1 now2 a u req).1
          = false := by
        simp only [handler]
        rw [hm]
        simp only [postNotOptions, postBneSelf, hc, hval, Bool.not_true,
          Bool.false_eq_true, if_false, ite_false]
        rcases hg : getSFMCToken cfg cache now1 now2 a with ⟨res, cache1, calls⟩
        rcases res with msg | tok
        · simp [hg, isValidationFailure]
        · cases hu : u.ok <;>
            simp [hg, insertDataExtensionRows, hu, isValidationFailure]
      rw [hcontra.1] at hbad
      cases hbad

/-- Witness for C3 (amended): a POST without `emailName` is rejected with
the 400 response and an empty trace. -/
theorem handler_validation_characterization_witness :
    isValidationFailure (handler cfgEx initialCache tsCounting 0 0 respOk
        upsertOk reqNoEmail).1 = true ∧
    (handler cfgEx initialCache tsCounting 0 0 respOk upsertOk reqNoEmail).2.2 = [] :=
  (handler_validation_characterization cfgEx initialCache tsCounting 0 0 respOk
    upsertOk reqNoEmail rfl (by decide)).mpr (by decide)

/-- Claim C3 counterexample: a request whose `fields` is the empty array is
not rejected as a validation failure; the handler answers success with zero
rows after two network calls (token exchange and upsert). -/
theorem emptyFields_passes_validation_and_calls_network :
    isValidationFailure (handler cfgEx initialCache tsCounting 0 0 respOk
        upsertOk reqEmptyFields).1 = false ∧
    (handler cfgEx initialCache tsCounting 0 0 respOk upsertOk reqEmptyFields).1
      = HandlerResult.ok 0 (successMsg 0) "accepted" ∧
    (handler cfgEx initialCache tsCounting 0 0 respOk upsertOk
        reqEmptyFields).2.2.length = 2 := by decide

/-- Claim C4 counterexample: a request with two case-insensitively equal
field names is not rejected by the server: the save succeeds with two rows
after two network calls, so no validation failure precedes the network. -/
theorem duplicate_names_accepted_by_server :
    isValidationFailure (handler cfgEx initialCache tsCounting 0 0 respOk
        upsertOk reqDupFields).1 = false ∧
    (handler cfgEx initialCache tsCounting 0 0 respOk upsertOk reqDupFields).1
      = HandlerResult.ok 2 (successMsg 2) "accepted" ∧
    (handler cfgEx initialCache tsCounting 0 0 respOk upsertOk
        reqDupFields).2.2.length = 2 := by decide

/-- Claim C6: for every valid save request with `fields = fs`, a
successful run answers success with `rowsInserted = fs.length`, sends
exactly `fs.length` rows upstream, and every sent row carries the
request's email name. -/
theorem handler_success_row_count (cfg : Config) (cache : TokenCache)
    (tsAt : Nat → String) (now1 now2 : Int) (a : AuthResponse)
    (u : UpsertResponse) (req : HttpRequest) (fs : List Field)
    (hm : req.method = "POST") (hc : configPresent cfg = true)
    (he : strTruthy req.body.emailName = true)
    (hf : req.body.fields = some fs)
    (htok : tokenFresh cache now1 = true ∨ a.ok = true)
    (hu : u.ok = true) :
    (handler cfg cache tsAt now1 now2 a u req).1
      = HandlerResult.ok fs.length (successMsg fs.length) u.json ∧
    (sentRows (handler cfg cache tsAt now1 now2 a u req).2.2).length = fs.length ∧
    ∀ r ∈ sentRows (handler cfg cache tsAt now1 now2 a u req).2.2,
      r.emailName = req.body.emailName.getD "" := by
  obtain ⟨tok, cache1, calls, hg, hsr, _⟩ :=
    getSFMCToken_ok_cases cfg cache now1 now2 a htok
  have hrun := handler_with_token cfg cache cache1 tsAt now1 now2 a u req fs tok
    calls hm hc he hf hg hu
  rw [hrun]
  refine ⟨rfl, ?_, ?_⟩
  · simp [sentRows_append, hsr, sentRows_cons_upsert, sentRows_nil,
      map_values_toApiRow, buildDataRows_length]
  · intro r hr
    rw [sentRows_append, hsr] at hr
    simp only [List.nil_append, sentRows_cons_upsert, sentRows_nil,
      List.append_nil, map_values_toApiRow] at hr
    exact buildDataRows_emailName (req.body.emailName.getD "") tsAt fs 0 r hr

/-- Witness for C6: the two-field request yields `rowsInserted = 2`, two
sent rows, each carrying the email name "Welcome Email". -/
theorem handler_success_row_count_witness :
    (handler cfgEx initialCache tsCounting 0 0 respOk upsertOk reqTwoFields).1
      = HandlerResult.ok 2 (successMsg 2) "accepted" ∧
    (sentRows (handler cfgEx initialCache tsCounting 0 0 respOk upsertOk
        reqTwoFields).2.2).length = 2 ∧
    ∀ r ∈ sentRows (handler cfgEx initialCache tsCounting 0 0 respOk upsertOk
        reqTwoFields).2.2,
      r.emailName = "Welcome Email" :=
  handler_success_row_count cfgEx initialCache tsCounting 0 0 respOk upsertOk
    reqTwoFields [{ name := "subject", value := "Hi" },
                  { name := "header", value := "Yo" }]
    rfl (by decide) (by decide) rfl (Or.inr rfl) rfl

/-- Claim C7: whenever a save reaches submission, the whole batch goes out
as one single POST to the rowset endpoint, and its body is exactly the
array mapping each row to keys (email name, field name) plus the full row
as values. -/
theorem handler_single_bulk_upsert_matches_spec (cfg : Config)
    (cache : TokenCache) (tsAt : Nat → String) (now1 now2 : Int)
    (a : AuthResponse) (u : UpsertResponse) (req : HttpRequest) (fs : List Field)
    (hm : req.method = "POST") (hc : configPresent cfg = true)
    (he : strTruthy req.body.emailName = true)
    (hf : req.body.fields = some fs)
    (htok : tokenFresh cache now1 = true ∨ a.ok = true) :
    upsertCallsOf (handler cfg cache tsAt now1 now2 a u req).2.2
      = [(restUrl cfg,
          specUpsertBody (buildDataRows (req.body.emailName.getD "") tsAt fs 0))] := by
  obtain ⟨tok, cache1, calls, hg, _, hup⟩ :=
    getSFMCToken_ok_cases cfg cache now1 now2 a htok
  cases hu : u.ok
  · have hrun := handler_with_token_upsert_fail cfg cache cache1 tsAt now1 now2
      a u req fs tok calls hm hc he hf hg hu
    rw [hrun]
    simp [upsertCallsOf_append, hup, upsertCallsOf_cons_upsert, upsertCallsOf_nil,
      specUpsertBody_eq_map_toApiRow]
  · have hrun := handler_with_token cfg cache cache1 tsAt now1 now2 a u req fs
      tok calls hm hc he hf hg hu
    rw [hrun]
    simp [upsertCallsOf_append, hup, upsertCallsOf_cons_upsert, upsertCallsOf_nil,
      specUpsertBody_eq_map_toApiRow]

/-- Witness for C7: the two-field save issues exactly one rowset POST whose
body is the spec-shaped array for its two rows. -/
theorem handler_single_bulk_upsert_matches_spec_witness :
    upsertCallsOf (handler cfgEx initialCache tsCounting 0 0 respOk upsertOk
        reqTwoFields).2.2
      = [(restUrl cfgEx,
          specUpsertBody (buildDataRows "Welcome Email" tsCounting
            [{ name := "subject", value := "Hi" },
             { name := "header", value := "Yo" }] 0))] :=
  handler_single_bulk_upsert_matches_spec cfgEx initialCache tsCounting 0 0
    respOk upsertOk reqTwoFields
    [{ name := "subject", value := "Hi" }, { name := "header", value := "Yo" }]
    rfl (by decide) (by decide) rfl (Or.inr rfl)

/-- Claim C10: when the token exchange succeeds but the upsert fails, the
save fails with the upsert error while the cache keeps the freshly stored
token; a later save within the expiry window then performs no token
exchange and reuses that token as its bearer. -/
theorem cache_unchanged_after_upsert_failure (cfg : Config) (cache : TokenCache)
    (tsAt tsAt2 : Nat → String) (now1 now2 now1b now2b : Int)
    (a a2 : AuthResponse) (u u2 : UpsertResponse) (req req2 : HttpRequest)
    (fs fs2 : List Field)
    (hm : req.method = "POST") (hc : configPresent cfg = true)
    (he : strTruthy req.body.emailName = true) (hf : req.body.fields = some fs)
    (hmiss : tokenFresh cache now1 = false) (ha : a.ok = true) (hu : u.ok = false)
    (hm2 : req2.method = "POST") (he2 : strTruthy req2.body.emailName = true)
    (hf2 : req2.body.fields = some fs2)
    (htok : a.accessToken ≠ "")
    (hwin : now1b < now2 + (a.expiresIn - 60) * 1000) :
    (handler cfg cache tsAt now1 now2 a u req).1
      = HandlerResult.serverError (upsertErrorMsg u.status u.bodyText) ∧
    (handler cfg cache tsAt now1 now2 a u req).2.1 = refreshedCache a now2 ∧
    authCallsOf (handler cfg (handler cfg cache tsAt now1 now2 a u req).2.1
        tsAt2 now1b now2b a2 u2 req2).2.2 = [] ∧
    bearersOf (handler cfg (handler cfg cache tsAt now1 now2 a u req).2.1
        tsAt2 now1b now2b a2 u2 req2).2.2 = [a.accessToken] := by
  have hg1 : getSFMCToken cfg cache now1 now2 a
      = (Except.ok a.accessToken, refreshedCache a now2, [authReq cfg]) := by
    simp [getSFMCToken, hmiss, ha]
  have hrun1 := handler_with_token_upsert_fail cfg cache (refreshedCache a now2)
    tsAt now1 now2 a u req fs a.accessToken [authReq cfg] hm hc he hf hg1 hu
  have hfresh2 : tokenFresh (refreshedCache a now2) now1b = true := by
    simp [tokenFresh, refreshedCache, strTruthy, bne_iff_ne, htok, hwin]
  have hg2 : getSFMCToken cfg (refreshedCache a now2) now1b now2b a2
      = (Except.ok a.accessToken, refreshedCache a now2, []) := by
    unfold getSFMCToken
    rw [hfresh2]
    simp [refreshedCache]
  refine ⟨by rw [hrun1], by rw [hrun1], ?_, ?_⟩
  · rw [hrun1]
    cases hu2 : u2.ok
    · have hrun2 := handler_with_token_upsert_fail cfg (refreshedCache a now2)
        (refreshedCache a now2) tsAt2 now1b now2b a2 u2 req2 fs2 a.accessToken []
        hm2 hc he2 hf2 hg2 hu2
      rw [hrun2]
      simp [authCallsOf_append, authCallsOf_nil, authCallsOf_cons_upsert]
    · have hrun2 := handler_with_token cfg (refreshedCache a now2)
        (refreshedCache a now2) tsAt2 now1b now2b a2 u2 req2 fs2 a.accessToken []
        hm2 hc he2 hf2 hg2 hu2
      rw [hrun2]
      simp [authCallsOf_append, authCallsOf_nil, authCallsOf_cons_upsert]
  · rw [hrun1]
    cases hu2 : u2.ok
    · have hrun2 := handler_with_token_upsert_fail cfg (refreshedCache a now2)
        (refreshedCache a now2) tsAt2 now1b now2b a2 u2 req2 fs2 a.accessToken []
        hm2 hc he2 hf2 hg2 hu2
      rw [hrun2]
      simp [bearersOf_append, bearersOf_nil, bearersOf_cons_upsert]
    · have hrun2 := handler_with_token cfg (refreshedCache a now2)
        (refreshedCache a now2) tsAt2 now1b now2b a2 u2 req2 fs2 a.accessToken []
        hm2 hc he2 hf2 hg2 hu2
      rw [hrun2]
      simp [bearersOf_append, bearersOf_nil, bearersOf_cons_upsert]

/-- Witness for C10: a first save whose upsert answers 500 leaves the token
"tok" cached; a second save at time 100 (within the expiry window) issues
no token exchange and reuses "tok" as the bearer of its single upsert. -/
theorem cache_unchanged_after_upsert_failure_witness :
    (handler cfgEx initialCache tsCounting 0 0 respOk upsertBad reqTwoFields).1
      = HandlerResult.serverError (upsertErrorMsg 500 "boom") ∧
    (handler cfgEx initialCache tsCounting 0 0 respOk upsertBad reqTwoFields).2.1
      = refreshedCache respOk 0 ∧
    authCallsOf (handler cfgEx
        (handler cfgEx initialCache tsCounting 0 0 respOk upsertBad
          reqTwoFields).2.1
        tsCounting 100 200 resp401 upsertOk reqTwoFields).2.2 = [] ∧
    bearersOf (handler cfgEx
        (handler cfgEx initialCache tsCounting 0 0 respOk upsertBad
          reqTwoFields).2.1
        tsCounting 100 200 resp401 upsertOk reqTwoFields).2.2 = ["tok"] :=
  cache_unchanged_after_upsert_failure cfgEx initialCache tsCounting tsCounting
    0 0 100 200 respOk resp401 upsertBad upsertOk reqTwoFields reqTwoFields
    [{ name := "subject", value := "Hi" }, { name := "header", value := "Yo" }]
    [{ name := "subject", value := "Hi" }, { name := "header", value := "Yo" }]
    rfl (by decide) (by decide) rfl (by decide) rfl rfl rfl (by decide) rfl
    (by decide) (by decide)

end SfmcRelay

namespace Widget

theorem collectLoop_dup_in_acc (b : String × String) (f : SfmcRelay.Field)
    (hdup : jsToLower f.name = jsToLower (jsTrim b.1)) :
    ∀ (mid post : List (String × String)) (acc : List SfmcRelay.Field),
      f ∈ acc → isErr (collectLoop (mid ++ (b :: post)) acc) = true := by
  intro mid
  induction mid with
  | nil =>
      intro post acc hf
      simp only [List.nil_append, collectLoop]
      cases h1 : (jsTrim b.1 == "" || jsTrim b.2 == "")
      · have hany : acc.any (fun g => jsToLower g.name == jsToLower (jsTrim b.1))
            = true :=
          List.any_eq_true.mpr ⟨f, hf, by simp [hdup]⟩
        simp [h1, hany, isErr]
      · simp [h1, isErr]
  | cons m mt ih =>
      intro post acc hf
      simp only [List.cons_append, collectLoop]
      cases h1 : (jsTrim m.1 == "" || jsTrim m.2 == "")
      · cases h2 : acc.any (fun g => jsToLower g.name == jsToLower (jsTrim m.1))
        · simpa [h1, h2] using
            ih post
              (acc ++ [{ name := sanitizeInput (jsTrim m.1),
                         value := sanitizeInput (jsTrim m.2) }])
              (List.mem_append_left _ hf)
        · simp [h1, h2, isErr]
      · simp [h1, isErr]

theorem collectLoop_dup (a b : String × String)
    (hsan : sanitizeInput (jsTrim a.1) = jsTrim a.1)
    (hdup : jsToLower (jsTrim a.1) = jsToLower (jsTrim b.1)) :
    ∀ (pre mid post : List (String × String)) (acc : List SfmcRelay.Field),
      isErr (collectLoop (pre ++ (a :: (mid ++ (b :: post)))) acc) = true := by
  intro pre
  induction pre with
  | nil =>
      intro mid post acc
      simp only [List.nil_append, collectLoop]
      cases h1 : (jsTrim a.1 == "" || jsTrim a.2 == "")
      · cases h2 : acc.any (fun g => jsToLower g.name == jsToLower (jsTrim a.1))
        · have hmem : ({ name := sanitizeInput (jsTrim a.1),
                         value := sanitizeInput (jsTrim a.2) } : SfmcRelay.Field)
              ∈ acc ++ [{ name := sanitizeInput (jsTrim a.1),
                          value := sanitizeInput (jsTrim a.2) }] :=
            List.mem_append_right _ (List.mem_singleton.mpr rfl)
          have hname : jsToLower
              ({ name := sanitizeInput (jsTrim a.1),
                 value := sanitizeInput (jsTrim a.2) } : SfmcRelay.Field).name
              = jsToLower (jsTrim b.1) := by
            show jsToLower (sanitizeInput (jsTrim a.1)) = jsToLower (jsTrim b.1)
            rw [hsan, hdup]
          simpa [h1, h2] using
            collectLoop_dup_in_acc b _ hname mid post _ hmem
        · simp [h1, h2, isErr]
      · simp [h1, isErr]
  | cons p pt ih =>
      intro mid post acc
      simp only [List.cons_append, collectLoop]
      cases h1 : (jsTrim p.1 == "" || jsTrim p.2 == "")
      · cases h2 : acc.any (fun g => jsToLower g.name == jsToLower (jsTrim p.1))
        · simpa [h1, h2] using
            ih mid post
              (acc ++ [{ name := sanitizeInput (jsTrim p.1),
                         value := sanitizeInput (jsTrim p.2) }])
        · simp [h1, h2, isErr]
      · simp [h1, isErr]

/-- Claim C4 (amended): the case-insensitive duplicate-name check lives in
the widget, not in the server: `collectFieldData` fails validation (the JS
`null` return, so the widget sends nothing) whenever a later field's
trimmed name equals, case-insensitively, the trimmed name of an earlier
field that sanitization leaves unchanged; the server itself accepts
duplicate names (see the counterexample). -/
theorem collectFieldData_rejects_duplicate_names (rawEmailName : String)
    (pre mid post : List (String × String)) (a b : String × String)
    (hsan : sanitizeInput (jsTrim a.1) = jsTrim a.1)
    (hdup : jsToLower (jsTrim a.1) = jsToLower (jsTrim b.1)) :
    isErr (collectFieldData rawEmailName (pre ++ (a :: (mid ++ (b :: post)))))
      = true := by
  unfold collectFieldData
  cases he : (jsTrim rawEmailName == "")
  · have h := collectLoop_dup a b hsan hdup pre mid post []
    cases hcl : collectLoop (pre ++ (a :: (mid ++ (b :: post)))) [] with
    | error msg => simp [he, hcl, isErr]
    | ok flds => rw [hcl] at h; simp [isErr] at h
  · simp [he, isErr]

/-- Witness for C4 (amended): the form data ("subject", "Hi") followed by
("Subject", "Hi2") fails the widget's validation. -/
theorem collectFieldData_rejects_duplicate_names_witness :
    isErr (collectFieldData "Welcome Email"
        [("subject", "Hi"), ("Subject", "Hi2")]) = true :=
  collectFieldData_rejects_duplicate_names "Welcome Email" [] [] []
    ("subject", "Hi") ("Subject", "Hi2") (by decide) (by decide)

end Widget
